import Mathlib

/-!
Shallow embedding of the RTSP protocol core of os-nvr: the Transport header
codec (`pkg/video/gortsplib/pkg/headers/transport.go`), the RTP/MPEG-4-audio
depacketizer (`pkg/video/gortsplib/pkg/rtpmpeg4audio/decoder.go`), and a
session-binding model taken from the specification for the server components
whose sources are not part of the extract.

Machine integers are embedded as `Nat`/`Int`; Go byte slices become
`List Nat` with every element below 256 where that matters.
-/

namespace NVR

/-- Strings are modelled as lists of characters. -/
abbrev Str := List Char

/-- Decidable equality for `Except` results, used to evaluate the embedded
functions on concrete inputs. -/
instance instDecEqExcept {ε α : Type} [DecidableEq ε] [DecidableEq α] :
    DecidableEq (Except ε α) := fun x y =>
  match x, y with
  | .ok a, .ok b =>
    if h : a = b then isTrue (by rw [h]) else isFalse (by intro hh; cases hh; exact h rfl)
  | .error a, .error b =>
    if h : a = b then isTrue (by rw [h]) else isFalse (by intro hh; cases hh; exact h rfl)
  | .ok _, .error _ => isFalse (by intro hh; cases hh)
  | .error _, .ok _ => isFalse (by intro hh; cases hh)

/-- Value of a decimal digit character, `none` for non-digits. -/
def digitVal (c : Char) : Option Nat :=
  if '0' ≤ c ∧ c ≤ '9' then some (c.toNat - '0'.toNat) else none

/-- Accumulating scan over decimal digits, the digit loop of Go
`strconv.ParseInt` (base 10): fails on the first non-digit character. -/
def decDigitsGo (acc : Nat) : Str → Option Nat
  | [] => some acc
  | c :: cs =>
    match digitVal c with
    | some d => decDigitsGo (acc * 10 + d) cs
    | none => none

/-- Value of a non-empty all-decimal-digit string, `none` otherwise. -/
def decDigitsVal : Str → Option Nat
  | [] => none
  | c :: cs => decDigitsGo 0 (c :: cs)

/-- Go `strconv.ParseInt(s, 10, 64)`: optional sign, at least one digit,
64-bit signed range check (`none` both for syntax and range errors, which
`parsePorts` treats alike). -/
def parseInt64 (s : Str) : Option Int :=
  let signDigits : Bool × Str :=
    match s with
    | c :: rest =>
      if c = '-' then (true, rest)
      else if c = '+' then (false, rest)
      else (false, c :: rest)
    | [] => (false, [])
  match decDigitsVal signDigits.2 with
  | none => none
  | some n =>
    if signDigits.1 then
      if n ≤ 2 ^ 63 then some (-(n : Int)) else none
    else
      if n ≤ 2 ^ 63 - 1 then some (n : Int) else none

/-- Splits a string on a separator character (Go `strings.Split`): always
returns at least one chunk, separators delimit possibly-empty chunks. -/
def splitOnChar (c : Char) : Str → List Str
  | [] => [[]]
  | a :: rest =>
    if a = c then [] :: splitOnChar c rest
    else
      match splitOnChar c rest with
      | [] => [[a]]
      | s :: ss => (a :: s) :: ss

/-- Splits a chunk at its first `=` into key and value; a chunk without
`=` is all key with an empty value. -/
def splitKV : Str → Str × Str
  | [] => ([], [])
  | a :: rest =>
    if a = '=' then ([], rest)
    else
      let kv := splitKV rest
      (a :: kv.1, kv.2)

/-- Modelled from the spec: `keyValParse` (in `pkg/video/gortsplib/pkg/headers`,
not under `src/`) parses the header value as a semicolon-separated key/value
list (§4.1: "Input is a semicolon-separated key/value list"). `Unmarshal`
iterates the resulting pairs; pair order is immaterial to the claims proved
here because the header strings involved carry each key at most once. -/
def keyValParse (s : Str) : List (Str × Str) :=
  (splitOnChar ';' s).map splitKV

/-- Transport header errors (`transport.go`). -/
inductive TransportError
  | portsInvalid
  | valueMissing
  | multipleValues
  | invalidMode
  | protocolNotFound
deriving DecidableEq

/-- `parsePorts` of `transport.go`: `a-b`, or `a` meaning the pair
`(a, a+1)`. -/
def parsePorts (val : Str) : Except TransportError (Int × Int) :=
  match splitOnChar '-' val with
  | [p0, p1] =>
    match parseInt64 p0, parseInt64 p1 with
    | some a, some b => .ok (a, b)
    | _, _ => .error .portsInvalid
  | [p0] =>
    match parseInt64 p0 with
    | some a => .ok (a, a + 1)
    | none => .error .portsInvalid
  | _ => .error .portsInvalid

/-- Transport modes (`TransportModePlay`, `TransportModeRecord`). -/
inductive TransportMode
  | play
  | record
deriving DecidableEq

/-- The `Transport` header structure: optional interleaved channel-id pair,
optional 32-bit SSRC, optional mode. -/
structure Transport where
  interleavedIDs : Option (Int × Int) := none
  ssrc : Option Nat := none
  mode : Option TransportMode := none
deriving DecidableEq

/-- Value of a hexadecimal digit character, `none` otherwise. -/
def hexDigitVal (c : Char) : Option Nat :=
  if '0' ≤ c ∧ c ≤ '9' then some (c.toNat - '0'.toNat)
  else if 'a' ≤ c ∧ c ≤ 'f' then some (c.toNat - 'a'.toNat + 10)
  else if 'A' ≤ c ∧ c ≤ 'F' then some (c.toNat - 'A'.toNat + 10)
  else none

/-- Go `hex.DecodeString`: pairs of hex digits to bytes; odd length or a
non-hex character is an error. -/
def hexDecode : Str → Option (List Nat)
  | [] => some []
  | [_] => none
  | c1 :: c2 :: rest =>
    match hexDigitVal c1, hexDigitVal c2, hexDecode rest with
    | some d1, some d2, some bs => some ((d1 * 16 + d2) :: bs)
    | _, _, _ => none

/-- Big-endian value of a byte list. -/
def beBytesVal (bs : List Nat) : Nat :=
  bs.foldl (fun acc b => acc * 256 + b) 0

/-- Go `strings.TrimLeft(v, " ")`. -/
def trimLeftSpaces (s : Str) : Str :=
  s.dropWhile (fun c => c = ' ')

/-- The `ssrc` case of `Transport.Unmarshal` (`transport.go` lines 108-120):
trim left spaces, left-pad with a `0` nibble if of odd length, hex-decode;
the decoded bytes are right-aligned into a 4-byte field read big-endian.
Values that fail to decode or exceed 4 bytes are dropped without error. -/
def ssrcParse (v : Str) : Option Nat :=
  let v1 := trimLeftSpaces v
  let v2 := if v1.length % 2 ≠ 0 then '0' :: v1 else v1
  match hexDecode v2 with
  | some tmp => if tmp.length ≤ 4 then some (beBytesVal tmp) else none
  | none => none

/-- Removes one leading double quote (Go `strings.TrimPrefix` with a quote
argument). -/
def dropQuoteHead : Str → Str
  | '"' :: rest => rest
  | s => s

/-- Removes one trailing double quote (Go `strings.TrimSuffix` with a quote
argument). -/
def dropQuoteLast (s : Str) : Str :=
  if s.getLast? = some '"' then s.dropLast else s

/-- The `mode` case of `Transport.Unmarshal`: lower-case, strip optional
quotes; `play` maps to play, `record` and the legacy alias `receive` both
map to record, anything else is `invalidMode`. Go lower-cases with full
Unicode tables; `Char.toLower` agrees with it on ASCII, which decides all
three accepted tokens. -/
def modeParse (v : Str) : Except TransportError TransportMode :=
  let str := dropQuoteLast (dropQuoteHead (v.map Char.toLower))
  if str = "play".toList then .ok .play
  else if str = "record".toList ∨ str = "receive".toList then .ok .record
  else .error .invalidMode

/-- The loop body of `Transport.Unmarshal`: dispatch on the key, updating
the partially-filled header and the `protocolFound` flag; unknown keys are
ignored. -/
def applyKV (h : Transport) (protocolFound : Bool) (kv : Str × Str) :
    Except TransportError (Transport × Bool) :=
  if kv.1 = "RTP/AVP/TCP".toList then
    .ok (h, true)
  else if kv.1 = "interleaved".toList then
    match parsePorts kv.2 with
    | .error e => .error e
    | .ok ids => .ok ({ h with interleavedIDs := some ids }, protocolFound)
  else if kv.1 = "ssrc".toList then
    match ssrcParse kv.2 with
    | some n => .ok ({ h with ssrc := some n }, protocolFound)
    | none => .ok (h, protocolFound)
  else if kv.1 = "mode".toList then
    match modeParse kv.2 with
    | .ok m => .ok ({ h with mode := some m }, protocolFound)
    | .error e => .error e
  else
    .ok (h, protocolFound)

/-- The key/value dispatch loop of `Transport.Unmarshal`, folded over the
parsed pairs. -/
def unmarshalKVs (h : Transport) (protocolFound : Bool) :
    List (Str × Str) → Except TransportError (Transport × Bool)
  | [] => .ok (h, protocolFound)
  | kv :: rest =>
    match applyKV h protocolFound kv with
    | .error e => .error e
    | .ok hp => unmarshalKVs hp.1 hp.2 rest

/-- `Transport.Unmarshal`: exactly one header value, parse the key/value
list into a fresh header, require the `RTP/AVP/TCP` protocol token. -/
def Transport.unmarshal (v : List Str) : Except TransportError Transport :=
  match v with
  | [] => .error .valueMissing
  | v0 :: rest =>
    if rest ≠ [] then .error .multipleValues
    else
      match unmarshalKVs {} false (keyValParse v0) with
      | .error e => .error e
      | .ok (h, protocolFound) =>
        if protocolFound then .ok h else .error .protocolNotFound

/-- Go `strconv.FormatInt(i, 10)` restricted to decimal. -/
def natToDec (n : Nat) : Str :=
  if n = 0 then ['0'] else (Nat.digits 10 n).reverse.map Nat.digitChar

/-- Decimal rendering of a signed integer. -/
def formatInt (i : Int) : Str :=
  if i < 0 then '-' :: natToDec (-i).toNat else natToDec i.toNat

/-- Upper-case hexadecimal digit of a value below 16. -/
def hexDigitUpper (d : Nat) : Char :=
  if d < 10 then Char.ofNat ('0'.toNat + d) else Char.ofNat ('A'.toNat + d - 10)

/-- `binary.BigEndian.PutUint32` followed by `hex.EncodeToString` and
`strings.ToUpper`: the eight upper-case hex digits of a 32-bit value. -/
def hexEncode4 (s : Nat) : Str :=
  [hexDigitUpper (s / 16 ^ 7 % 16), hexDigitUpper (s / 16 ^ 6 % 16),
   hexDigitUpper (s / 16 ^ 5 % 16), hexDigitUpper (s / 16 ^ 4 % 16),
   hexDigitUpper (s / 16 ^ 3 % 16), hexDigitUpper (s / 16 ^ 2 % 16),
   hexDigitUpper (s / 16 ^ 1 % 16), hexDigitUpper (s % 16)]

/-- Go `strings.Join` with a one-character separator. -/
def joinSep (c : Char) : List Str → Str
  | [] => []
  | [s] => s
  | s :: rest => s ++ c :: joinSep c rest

/-- `Transport.Marshal`: protocol token first, then `interleaved`, `ssrc`
(upper-case hex), `mode`, each only if set, joined by `;`. -/
def Transport.marshal (h : Transport) : List Str :=
  let rets := ["RTP/AVP/TCP".toList]
  let rets := rets ++
    (match h.interleavedIDs with
     | some ids => ["interleaved=".toList ++ formatInt ids.1 ++ '-' :: formatInt ids.2]
     | none => [])
  let rets := rets ++
    (match h.ssrc with
     | some s => ["ssrc=".toList ++ hexEncode4 s]
     | none => [])
  let rets := rets ++
    (match h.mode with
     | some .play => ["mode=play".toList]
     | some .record => ["mode=record".toList]
     | none => [])
  [joinSep ';' rets]

/-! ## RTP/MPEG-4-audio depacketizer (`pkg/video/gortsplib/pkg/rtpmpeg4audio/decoder.go`) -/

/-- An RTP packet as consumed by the decoder: marker bit, 32-bit timestamp,
payload bytes. -/
structure Packet where
  marker : Bool
  timestamp : Nat
  payload : List Nat
deriving DecidableEq

/-- Modelled from the spec: the RTP time decoder (`pkg/rtptimedec`, not under
`src/`): a monotonic, wraparound-tolerant mapping from 32-bit RTP timestamps
to a duration anchored at decoder initialization (§4.2 item on presentation
time). The duration is counted here in clock-rate ticks. -/
structure TimeDec where
  clockRate : Nat
  prevTs : Option Nat
  total : Int
deriving DecidableEq

/-- One step of the time decoder: signed 32-bit wraparound difference from
the previous timestamp, accumulated into the running total. -/
def TimeDec.decode (td : TimeDec) (ts : Nat) : Int × TimeDec :=
  match td.prevTs with
  | none => (0, { td with prevTs := some ts })
  | some prev =>
    let d : Nat := (ts + 2 ^ 32 - prev % 2 ^ 32) % 2 ^ 32
    let sdiff : Int := if d < 2 ^ 31 then (d : Int) else (d : Int) - 2 ^ 32
    let total := td.total + sdiff
    (total, { td with prevTs := some ts, total := total })

/-- ADTS parsing errors. -/
inductive ADTSError
  | invalidLength
  | invalidSyncword
  | invalidFrameLength
deriving DecidableEq

/-- One parsed ADTS packet: its raw AAC payload. -/
structure ADTSPacket where
  au : List Nat
deriving DecidableEq

/-- Modelled from the spec: `mpeg4audio.ADTSPackets.Unmarshal` (not under
`src/`). Per §4.2 item 8 and the glossary, a buffer is a sequence of ADTS
frames: each starts with the sync pattern (`0xFF`, top nibble `0xF`), has a
7-byte header whose 13-bit frame-length field (counted from the start of the
header) delimits the frame, and carries its raw AAC payload after the header.
Fuel bounds the frame count; `buf.length` always suffices since every frame
consumes at least 8 bytes. -/
def adtsUnmarshalGo : Nat → List Nat → Except ADTSError (List ADTSPacket)
  | 0, _ => .error .invalidLength
  | fuel + 1, buf =>
    match buf with
    | b0 :: b1 :: _ :: b3 :: b4 :: b5 :: _ :: rest =>
      if b0 = 255 ∧ b1 / 16 = 15 then
        let frameLen := b3 % 4 * 2 ^ 11 + b4 * 2 ^ 3 + b5 / 2 ^ 5
        if 8 ≤ frameLen ∧ frameLen ≤ 7 + rest.length then
          let au := rest.take (frameLen - 7)
          let remaining := rest.drop (frameLen - 7)
          if remaining = [] then .ok [⟨au⟩]
          else
            match adtsUnmarshalGo fuel remaining with
            | .ok pkts => .ok (⟨au⟩ :: pkts)
            | .error e => .error e
        else .error .invalidFrameLength
      else .error .invalidSyncword
    | _ => .error .invalidLength

/-- ADTS unmarshalling with sufficient fuel. -/
def adtsUnmarshal (buf : List Nat) : Except ADTSError (List ADTSPacket) :=
  adtsUnmarshalGo buf.length buf

/-- Depacketizer errors (`decoder.go`); `morePacketsNeeded` is the
`ErrMorePacketsNeeded` sentinel. -/
inductive DecError
  | shortPayload
  | auInvalidLength
  | auIndexNotZero
  | auIndexDeltaNotZero
  | fragMultipleAU
  | adtsMultipleAU
  | multipleADTS
  | morePacketsNeeded
  | auSizeTooBig (size : Nat)
  | notEnoughBits
  | adtsDecode (e : ADTSError)
deriving DecidableEq

/-- Bit `i` of a byte list, most-significant bit of each byte first. -/
def bitAt (buf : List Nat) (i : Nat) : Nat :=
  buf.getD (i / 8) 0 / 2 ^ (7 - i % 8) % 2

/-- Big-endian value of `n` bits starting at bit position `pos`. -/
def bitsVal (buf : List Nat) (pos n : Nat) : Nat :=
  (List.range n).foldl (fun acc k => acc * 2 + bitAt buf (pos + k)) 0

/-- Modelled from the spec: `bits.ReadBits` (`pkg/video/gortsplib/pkg/bits`,
not under `src/`): reads `n` bits big-endian starting at bit position `pos`,
failing when fewer than `n` bits remain (§4.2 item 3 parses the AU-header
section bitwise). Returns the value and the advanced position. -/
def readBits (buf : List Nat) (pos n : Nat) : Except DecError (Nat × Nat) :=
  if pos + n ≤ 8 * buf.length then .ok (bitsVal buf pos n, pos + n)
  else .error .notEnoughBits

/-- Modelled from the spec: `mpeg4audio.MaxAccessUnitSize` (not under
`src/`), the hard maximum access-unit size bounding fragmented reassembly
(§4.2 item 5). The exact value is immaterial to the theorems below. -/
def MaxAccessUnitSize : Nat := 5 * 1024

/-- The header-counting loop of `Decoder.readAUHeaders` (`decoder.go` lines
184-194): `szIdx` is `SizeLength + IndexLength`, `szDelta` is
`SizeLength + IndexDeltaLength`. `none` means the fuel ran out; a fuel of
`headersLen + 1` is exhausted exactly when the Go loop never terminates,
because each terminating iteration advances `i` by at least one. -/
def countLoop (szIdx szDelta headersLen : Nat) : Nat → Nat → Nat → Option Nat
  | 0, _, _ => none
  | fuel + 1, i, count =>
    if i < headersLen then
      if i = 0 then countLoop szIdx szDelta headersLen fuel (i + szIdx) (count + 1)
      else countLoop szIdx szDelta headersLen fuel (i + szDelta) (count + 1)
    else some count

/-- The header-reading loop of `Decoder.readAUHeaders` (`decoder.go` lines
201-235): reads a size field, then the AU-index (first header) or
AU-index-delta (later headers) when their configured widths are positive,
requiring both to decode to zero. The remaining bit budget is a Go `int`
and may go negative, hence `Int`. `none` means the fuel ran out. -/
def readLoopGo (buf : List Nat) (szLen idxLen idxDeltaLen : Nat) :
    Nat → Int → Nat → Bool → List Nat → Option (Except DecError (List Nat))
  | 0, _, _, _, _ => none
  | fuel + 1, headersLen, pos, firstRead, acc =>
    if headersLen > 0 then
      match readBits buf pos szLen with
      | .error e => some (.error e)
      | .ok (dataLen, pos1) =>
        let h1 : Int := headersLen - szLen
        if firstRead = false then
          if 0 < idxLen then
            match readBits buf pos1 idxLen with
            | .error e => some (.error e)
            | .ok (auIndex, pos2) =>
              if auIndex ≠ 0 then some (.error .auIndexNotZero)
              else readLoopGo buf szLen idxLen idxDeltaLen fuel (h1 - idxLen) pos2 true
                (acc ++ [dataLen])
          else readLoopGo buf szLen idxLen idxDeltaLen fuel h1 pos1 true (acc ++ [dataLen])
        else
          if 0 < idxDeltaLen then
            match readBits buf pos1 idxDeltaLen with
            | .error e => some (.error e)
            | .ok (auIndexDelta, pos2) =>
              if auIndexDelta ≠ 0 then some (.error .auIndexDeltaNotZero)
              else readLoopGo buf szLen idxLen idxDeltaLen fuel (h1 - idxDeltaLen) pos2 firstRead
                (acc ++ [dataLen])
          else readLoopGo buf szLen idxLen idxDeltaLen fuel h1 pos1 firstRead (acc ++ [dataLen])
    else some (.ok acc)

/-- Decoder state (`Decoder` of `decoder.go`): configuration fields plus the
mutable depacketizer state. -/
structure Decoder where
  sampleRate : Nat
  sizeLength : Nat
  indexLength : Nat
  indexDeltaLength : Nat
  timeDecoder : TimeDec
  firstAUParsed : Bool
  adtsMode : Bool
  fragments : List (List Nat)
  fragmentedSize : Nat
deriving DecidableEq

/-- `Decoder.Init`. -/
def Decoder.init (sampleRate sizeLength indexLength indexDeltaLength : Nat) : Decoder :=
  { sampleRate, sizeLength, indexLength, indexDeltaLength
    timeDecoder := { clockRate := sampleRate, prevTs := none, total := 0 }
    firstAUParsed := false, adtsMode := false, fragments := [], fragmentedSize := 0 }

/-- `Decoder.readAUHeaders`: the counting loop followed by the reading loop.
`none` reflects non-termination of the Go loops (see `countLoop`); when the
counting loop terminates the reading loop is guaranteed to finish within the
same fuel. -/
def Decoder.readAUHeaders (d : Decoder) (buf : List Nat) (headersLen : Nat) :
    Option (Except DecError (List Nat)) :=
  match countLoop (d.sizeLength + d.indexLength) (d.sizeLength + d.indexDeltaLength)
      headersLen (headersLen + 1) 0 0 with
  | none => none
  | some _ =>
    readLoopGo buf d.sizeLength d.indexLength d.indexDeltaLength
      (headersLen + 1) (headersLen : Int) 0 false []

/-- `Decoder.finalize` (`decoder.go` lines 240-274): ADTS auto-detection on
the first successfully decoded AU, and the per-call ADTS-mode checks
afterwards. Returns the possibly rewritten AUs and the updated state. -/
def Decoder.finalize (d : Decoder) (aus : List (List Nat)) :
    Except DecError (List (List Nat)) × Decoder :=
  if d.firstAUParsed = false then
    let d1 := { d with firstAUParsed := true }
    match aus with
    | [a0 :: a1 :: arest] =>
      if a0 = 255 ∧ a1 / 16 = 15 then
        match adtsUnmarshal (a0 :: a1 :: arest) with
        | .ok [p] => (.ok [p.au], { d1 with adtsMode := true })
        | _ => (.ok aus, d1)
      else (.ok aus, d1)
    | _ => (.ok aus, d1)
  else if d.adtsMode then
    match aus with
    | [a] =>
      match adtsUnmarshal a with
      | .error e => (.error (.adtsDecode e), d)
      | .ok [p] => (.ok [p.au], d)
      | .ok _ => (.error .multipleADTS, d)
    | _ => (.error .adtsMultipleAU, d)
  else (.ok aus, d)

/-- `Decoder.decodeFragmented` (`decoder.go` lines 98-140). The reassembled
buffer is built exactly as Go's `make`/`copy` loop does: `fragmentedSize`
bytes, filled from the concatenated fragments and zero elsewhere. -/
def Decoder.decodeFragmented (d : Decoder) (dataLens : List Nat)
    (payload : List Nat) (pkt : Packet) :
    Except DecError (List (List Nat) × Int) × Decoder :=
  match dataLens with
  | [n] =>
    if payload.length < n then (.error .shortPayload, d)
    else
      let fs := d.fragmentedSize + n
      if fs > MaxAccessUnitSize then
        (.error (.auSizeTooBig fs), { d with fragments := [], fragmentedSize := fs })
      else
        let d1 := { d with fragmentedSize := fs, fragments := d.fragments ++ [payload.take n] }
        if pkt.marker = false then (.error .morePacketsNeeded, d1)
        else
          let joined := d1.fragments.flatten
          let ret := joined.take d1.fragmentedSize ++
            List.replicate (d1.fragmentedSize - joined.length) 0
          let d2 := { d1 with fragments := [] }
          match d2.finalize [ret] with
          | (.error e, d3) => (.error e, d3)
          | (.ok aus, d3) =>
            let td := d3.timeDecoder.decode pkt.timestamp
            (.ok (aus, td.1), { d3 with timeDecoder := td.2 })
  | _ => (.error .fragMultipleAU, { d with fragments := [] })

/-- The AU-splitting loop of `Decoder.decodeUnfragmented` (marker case):
each declared size must fit the remaining payload. -/
def splitAUs (payload : List Nat) : List Nat → Except DecError (List (List Nat))
  | [] => .ok []
  | n :: rest =>
    if payload.length < n then .error .shortPayload
    else
      match splitAUs (payload.drop n) rest with
      | .ok aus => .ok (payload.take n :: aus)
      | .error e => .error e

/-- `Decoder.decodeUnfragmented` (`decoder.go` lines 142-179). -/
def Decoder.decodeUnfragmented (d : Decoder) (dataLens : List Nat)
    (payload : List Nat) (pkt : Packet) :
    Except DecError (List (List Nat) × Int) × Decoder :=
  if pkt.marker then
    match splitAUs payload dataLens with
    | .error e => (.error e, d)
    | .ok aus =>
      match d.finalize aus with
      | (.error e, d1) => (.error e, d1)
      | (.ok aus1, d1) =>
        let td := d1.timeDecoder.decode pkt.timestamp
        (.ok (aus1, td.1), { d1 with timeDecoder := td.2 })
  else
    match dataLens with
    | [n] =>
      if payload.length < n then (.error .shortPayload, d)
      else
        (.error .morePacketsNeeded,
          { d with fragmentedSize := n, fragments := d.fragments ++ [payload.take n] })
    | _ => (.error .fragMultipleAU, d)

/-- The AU-header-section length in bytes: the bit length rounded up
(`decoder.go` lines 86-89). -/
def auHeaderBytes (headersLen : Nat) : Nat :=
  headersLen / 8 + (if headersLen % 8 ≠ 0 then 1 else 0)

/-- `Decoder.Decode` (`decoder.go` lines 68-96). The result pairs the Go
return value (AUs and presentation time, or an error) with the updated
decoder state; `none` reflects non-termination of `readAUHeaders`. -/
def Decoder.decode (d : Decoder) (pkt : Packet) :
    Option (Except DecError (List (List Nat) × Int) × Decoder) :=
  match pkt.payload with
  | b0 :: b1 :: _ =>
    let headersLen := b0 * 256 + b1
    if headersLen = 0 then some (.error .auInvalidLength, d)
    else
      let payload := pkt.payload.drop 2
      match d.readAUHeaders payload headersLen with
      | none => none
      | some (.error e) => some (.error e, d)
      | some (.ok dataLens) =>
        let payload1 := payload.drop (auHeaderBytes headersLen)
        if d.fragments ≠ [] then some (d.decodeFragmented dataLens payload1 pkt)
        else some (d.decodeUnfragmented dataLens payload1 pkt)
  | _ => some (.error .shortPayload, { d with fragments := [] })

/-! ## Session registry and connection handler

The server, connection-handler and session sources of the repository are not
part of the extract (only their tests are), so the models below are built
from the specification, §4.3 and §7. -/

/-- Session identifiers. -/
abbrev SessionID := Nat

/-- Connection identifiers. -/
abbrev ConnID := Nat

/-- Modelled from the spec: the session registry restricted to what decides
the TCP binding invariant (§3 "a TCP-mode session is bound to exactly one
connection at a time"; §4.3 SETUP). Bindings are kept as a relation so that
the at-most-one-connection invariant is a statement, not a data-type fact. -/
structure Registry where
  liveConns : List ConnID
  bindings : List (SessionID × ConnID)
deriving DecidableEq

/-- Result of a SETUP request at the registry level. -/
inductive SetupResult
  | ok
  | badRequest
deriving DecidableEq

/-- Modelled from the spec: SETUP in TCP-interleaved mode binds the session
to the issuing connection, "rejecting the SETUP if the session is already
bound to a *different* live connection" (§4.3); the rejection is answered
with bad-request and leaves the registry untouched. -/
def Registry.setupTCP (r : Registry) (c : ConnID) (s : SessionID) :
    SetupResult × Registry :=
  if ∃ b ∈ r.bindings, b.1 = s ∧ b.2 ≠ c ∧ b.2 ∈ r.liveConns then
    (.badRequest, r)
  else if ∃ b ∈ r.bindings, b.1 = s then
    (.ok, r)
  else
    (.ok, { r with bindings := (s, c) :: r.bindings })

/-- Modelled from the spec: a connection is accepted (§2 data flow). -/
def Registry.connOpen (r : Registry) (c : ConnID) : Registry :=
  { r with liveConns := c :: r.liveConns }

/-- Modelled from the spec: connection loss destroys the TCP sessions it
owns (§3 Session lifecycle, §4.4). -/
def Registry.connClose (r : Registry) (c : ConnID) : Registry :=
  { liveConns := r.liveConns.filter (fun c0 => c0 ≠ c)
    bindings := r.bindings.filter (fun b => b.2 ≠ c) }

/-- Modelled from the spec: TEARDOWN releases the session and unbinds its
connection (§4.3). -/
def Registry.teardown (r : Registry) (s : SessionID) : Registry :=
  { r with bindings := r.bindings.filter (fun b => b.1 ≠ s) }

/-- Registry events. -/
inductive RegEvent
  | connOpen (c : ConnID)
  | connClose (c : ConnID)
  | setupTCP (c : ConnID) (s : SessionID)
  | teardown (s : SessionID)
deriving DecidableEq

/-- One registry transition. -/
def Registry.step (r : Registry) : RegEvent → Registry
  | .connOpen c => r.connOpen c
  | .connClose c => r.connClose c
  | .setupTCP c s => (r.setupTCP c s).2
  | .teardown s => r.teardown s

/-- Registry states reachable from the empty registry. -/
inductive Registry.Reachable : Registry → Prop
  | init : Registry.Reachable ⟨[], []⟩
  | step (r : Registry) (e : RegEvent) :
      Registry.Reachable r → Registry.Reachable (r.step e)

/-- Connection-fatal errors (§7 class (a)). -/
inductive ConnFatalError
  | cseqMissing
deriving DecidableEq

/-- An RTSP request as far as the CSeq rule is concerned. -/
structure Request where
  method : Str
  cseq : Option Str
deriving DecidableEq

/-- Modelled from the spec: the per-connection request loop of the
connection handler (§4.3 "A request missing the mandatory sequence-number
header is a fatal connection error", §7 class (a): respond, then close the
connection immediately, reporting the error through the connection-close
callback). `inner` is the session layer answering well-formed requests;
the result is the response trace and what the close callback receives
(`none` for a graceful client-side close). -/
def connLoop (inner : Request → Nat) : List Request → List Nat × Option ConnFatalError
  | [] => ([], none)
  | req :: rest =>
    match req.cseq with
    | none => ([400], some .cseqMissing)
    | some _ =>
      let t := connLoop inner rest
      (inner req :: t.1, t.2)

/-! ## Theorems -/

/-- C2: in the registry model, a SETUP arriving on a different connection and
naming a session bound to a live connection is rejected with bad-request and
leaves the registry (hence the binding) unchanged; and in every reachable
state the binding relation is functional: no TCP session is bound to two
connections. -/
theorem tcp_session_single_conn (r : Registry) (hr : r.Reachable) :
    (∀ s c1 c2, (s, c1) ∈ r.bindings → (s, c2) ∈ r.bindings → c1 = c2) ∧
    (∀ s c1 c2, (s, c1) ∈ r.bindings → c1 ∈ r.liveConns → c2 ≠ c1 →
      r.setupTCP c2 s = (.badRequest, r)) := by
  constructor
  · induction hr with
    | init => intro s c1 c2 h1 _; simp at h1
    | step r e _ ih =>
      intro s c1 c2 h1 h2
      cases e with
      | connOpen c => exact ih s c1 c2 h1 h2
      | connClose c =>
        simp only [Registry.step, Registry.connClose, List.mem_filter] at h1 h2
        exact ih s c1 c2 h1.1 h2.1
      | teardown s0 =>
        simp only [Registry.step, Registry.teardown, List.mem_filter] at h1 h2
        exact ih s c1 c2 h1.1 h2.1
      | setupTCP c s0 =>
        by_cases hb : ∃ b ∈ r.bindings, b.1 = s0 ∧ b.2 ≠ c ∧ b.2 ∈ r.liveConns
        · have hst : r.step (.setupTCP c s0) = r := by
            simp [Registry.step, Registry.setupTCP, hb]
          rw [hst] at h1 h2
          exact ih s c1 c2 h1 h2
        · by_cases ha : ∃ b ∈ r.bindings, b.1 = s0
          · have hst : r.step (.setupTCP c s0) = r := by
              simp only [Registry.step, Registry.setupTCP, if_neg hb, if_pos ha]
            rw [hst] at h1 h2
            exact ih s c1 c2 h1 h2
          · have hst : (r.step (.setupTCP c s0)).bindings = (s0, c) :: r.bindings := by
              simp only [Registry.step, Registry.setupTCP, if_neg hb, if_neg ha]
            rw [hst] at h1 h2
            rcases List.mem_cons.mp h1 with h1' | h1' <;>
              rcases List.mem_cons.mp h2 with h2' | h2'
            · have e1 : c1 = c := congrArg Prod.snd h1'
              have e2 : c2 = c := congrArg Prod.snd h2'
              rw [e1, e2]
            · exact absurd ⟨(s, c2), h2', congrArg Prod.fst h1'⟩ ha
            · exact absurd ⟨(s, c1), h1', congrArg Prod.fst h2'⟩ ha
            · exact ih s c1 c2 h1' h2'
  · intro s c1 c2 h1 hlive hne
    have hex : ∃ b ∈ r.bindings, b.1 = s ∧ b.2 ≠ c2 ∧ b.2 ∈ r.liveConns :=
      ⟨(s, c1), h1, rfl, Ne.symm hne, hlive⟩
    simp [Registry.setupTCP, hex]

/-- C2 witness: a concrete reachable registry with session 10 bound to live
connection 1; a SETUP for session 10 from connection 2 is rejected and the
state is unchanged. -/
theorem tcp_session_single_conn_witness :
    Registry.setupTCP ⟨[2, 1], [(10, 1)]⟩ 2 10 = (.badRequest, ⟨[2, 1], [(10, 1)]⟩) := by
  have h0 := Registry.Reachable.init
  have h1 := Registry.Reachable.step _ (.connOpen 1) h0
  have h2 := Registry.Reachable.step _ (.setupTCP 1 10) h1
  have h3 := Registry.Reachable.step _ (.connOpen 2) h2
  have heq : ((((⟨[], []⟩ : Registry).step (.connOpen 1)).step
      (.setupTCP 1 10)).step (.connOpen 2)) = (⟨[2, 1], [(10, 1)]⟩ : Registry) := by decide
  rw [heq] at h3
  exact (tcp_session_single_conn _ h3).2 10 1 2 (by decide) (by decide) (by decide)

/-- A decode on a state with a pending fragment, once the AU-header section
parses, lands in `decodeFragmented` on the post-header payload. -/
theorem decode_frag_path (d : Decoder) (pkt : Packet) (b0 b1 : Nat)
    (rest dataLens : List Nat)
    (hp : pkt.payload = b0 :: b1 :: rest)
    (hl : b0 * 256 + b1 ≠ 0)
    (hr : d.readAUHeaders rest (b0 * 256 + b1) = some (.ok dataLens))
    (hf : d.fragments ≠ []) :
    d.decode pkt =
      some (d.decodeFragmented dataLens
        (rest.drop (auHeaderBytes (b0 * 256 + b1))) pkt) := by
  simp only [Decoder.decode, hp, List.drop_succ_cons, List.drop_zero, hr,
    if_neg hl, if_pos hf]

/-- A decode on a state with no pending fragment, once the AU-header section
parses, lands in `decodeUnfragmented` on the post-header payload. -/
theorem decode_unfrag_path (d : Decoder) (pkt : Packet) (b0 b1 : Nat)
    (rest dataLens : List Nat)
    (hp : pkt.payload = b0 :: b1 :: rest)
    (hl : b0 * 256 + b1 ≠ 0)
    (hr : d.readAUHeaders rest (b0 * 256 + b1) = some (.ok dataLens))
    (hf : d.fragments = []) :
    d.decode pkt =
      some (d.decodeUnfragmented dataLens
        (rest.drop (auHeaderBytes (b0 * 256 + b1))) pkt) := by
  simp only [Decoder.decode, hp, List.drop_succ_cons, List.drop_zero, hr,
    if_neg hl, hf, ne_eq, not_true_eq_false, if_false]

/-- C4: with a non-empty fragment buffer, a packet whose single declared AU
size (covered by its payload) pushes the cumulative fragmented size above
the hard maximum makes decode return the oversize error and clear the
fragment buffer — the following decode therefore starts with empty fragment
state — and a fragmented packet carrying more than one AU-header yields
the fragmented-multiple-AU error. -/
theorem frag_overflow_and_multiAU (d : Decoder) (pkt : Packet) (b0 b1 : Nat)
    (rest dataLens : List Nat)
    (hfrag : d.fragments ≠ [])
    (hp : pkt.payload = b0 :: b1 :: rest)
    (hl : b0 * 256 + b1 ≠ 0)
    (hr : d.readAUHeaders rest (b0 * 256 + b1) = some (.ok dataLens)) :
    (∀ n, dataLens = [n] →
      n ≤ (rest.drop (auHeaderBytes (b0 * 256 + b1))).length →
      d.fragmentedSize + n > MaxAccessUnitSize →
      d.decode pkt = some (.error (.auSizeTooBig (d.fragmentedSize + n)),
        { d with fragments := [], fragmentedSize := d.fragmentedSize + n })) ∧
    (dataLens.length ≠ 1 →
      d.decode pkt = some (.error .fragMultipleAU, { d with fragments := [] })) := by
  constructor
  · intro n hn hfit hover
    rw [decode_frag_path d pkt b0 b1 rest dataLens hp hl hr hfrag, hn]
    simp only [Decoder.decodeFragmented, if_neg (by omega :
      ¬(rest.drop (auHeaderBytes (b0 * 256 + b1))).length < n), if_pos hover]
  · intro hlen
    rw [decode_frag_path d pkt b0 b1 rest dataLens hp hl hr hfrag]
    match dataLens, hlen with
    | [], _ => rfl
    | _ :: _ :: _, _ => rfl
    | [x], h => exact absurd rfl h

/-- C4 witness state: steady decoder with 5119 fragmented bytes pending. -/
def dOver : Decoder :=
  { Decoder.init 48000 13 3 3 with
    firstAUParsed := true, fragments := [[7]], fragmentedSize := 5119 }

/-- C4 witness packet: marker unset, one AU-header declaring 2 bytes. -/
def pktOver : Packet := ⟨false, 0, [0, 16, 0, 16, 9, 9]⟩

/-- C4 witness: the concrete oversize decode returns the oversize error and
clears the fragment buffer. -/
theorem frag_overflow_witness :
    dOver.decode pktOver = some (.error (.auSizeTooBig 5121),
      { dOver with fragments := [], fragmentedSize := 5121 }) :=
  (frag_overflow_and_multiAU dOver pktOver 0 16 [0, 16, 9, 9] [2]
    (by decide) rfl (by decide) (by decide)).1 2 rfl (by decide) (by decide)

/-- C7: in the connection-handler model, a request with no CSeq header is
answered with bad-request (400) and then the connection closes, reporting
the missing-CSeq error through the close callback; the error is
connection-fatal: no later request on the connection is answered. -/
theorem cseq_missing_fatal (inner : Request → Nat) (reqs1 : List Request)
    (req : Request) (reqs2 : List Request)
    (h1 : ∀ r ∈ reqs1, r.cseq ≠ none) (h2 : req.cseq = none) :
    connLoop inner (reqs1 ++ req :: reqs2) =
      (reqs1.map inner ++ [400], some .cseqMissing) := by
  induction reqs1 with
  | nil => simp [connLoop, h2]
  | cons r0 rest ih =>
    have hr0 : r0.cseq ≠ none := h1 r0 (by simp)
    obtain ⟨v, hv⟩ : ∃ v, r0.cseq = some v := by
      cases hc : r0.cseq with
      | none => exact absurd hc hr0
      | some v => exact ⟨v, rfl⟩
    have ihh := ih (fun r hr => h1 r (by simp [hr]))
    simp [connLoop, hv, ihh]

/-- C7 witness: a concrete three-request connection where the second request
lacks CSeq: the first is answered, the second gets 400, the connection
closes with the missing-CSeq error, the third is never answered. -/
theorem cseq_missing_fatal_witness :
    connLoop (fun _ => 200)
      [⟨"OPTIONS".toList, some "1".toList⟩, ⟨"OPTIONS".toList, none⟩,
       ⟨"OPTIONS".toList, some "3".toList⟩] = ([200, 400], some .cseqMissing) :=
  cseq_missing_fatal (fun _ => 200) [⟨"OPTIONS".toList, some "1".toList⟩]
    ⟨"OPTIONS".toList, none⟩ [⟨"OPTIONS".toList, some "3".toList⟩]
    (by decide) (by decide)

/-- The finalize step never clears ADTS mode. -/
theorem finalize_adtsMode_mono (d : Decoder) (aus : List (List Nat))
    (h : d.adtsMode = true) : (d.finalize aus).2.adtsMode = true := by
  unfold Decoder.finalize
  repeat' split
  all_goals simp_all

theorem decodeFragmented_adtsMode_mono (d : Decoder) (dataLens payload : List Nat)
    (pkt : Packet) (h : d.adtsMode = true) :
    (d.decodeFragmented dataLens payload pkt).2.adtsMode = true := by
  rcases dataLens with _ | ⟨n, _ | ⟨m, t⟩⟩
  · exact h
  · unfold Decoder.decodeFragmented
    dsimp only
    split
    · exact h
    · split
      · exact h
      · split
        · exact h
        · split
          · rename_i e d3 heq
            have hd3 : _ = d3 := congrArg Prod.snd heq
            rw [← hd3]
            exact finalize_adtsMode_mono _ _ h
          · rename_i aus d3 heq
            have hd3 : _ = d3 := congrArg Prod.snd heq
            show d3.adtsMode = true
            rw [← hd3]
            exact finalize_adtsMode_mono _ _ h
  · exact h

theorem decodeUnfragmented_adtsMode_mono (d : Decoder) (dataLens payload : List Nat)
    (pkt : Packet) (h : d.adtsMode = true) :
    (d.decodeUnfragmented dataLens payload pkt).2.adtsMode = true := by
  unfold Decoder.decodeUnfragmented
  split
  · split
    · exact h
    · split
      · rename_i e d1 heq
        have hd1 : _ = d1 := congrArg Prod.snd heq
        rw [← hd1]
        exact finalize_adtsMode_mono _ _ h
      · rename_i aus1 d1 heq
        have hd1 : _ = d1 := congrArg Prod.snd heq
        show d1.adtsMode = true
        rw [← hd1]
        exact finalize_adtsMode_mono _ _ h
  · rcases dataLens with _ | ⟨n, _ | ⟨m, t⟩⟩
    · exact h
    · dsimp only
      split
      · exact h
      · exact h
    · exact h

theorem decode_adtsMode_mono (d : Decoder) (pkt : Packet)
    (res : Except DecError (List (List Nat) × Int)) (d' : Decoder)
    (h : d.adtsMode = true) (hd : d.decode pkt = some (res, d')) :
    d'.adtsMode = true := by
  unfold Decoder.decode at hd
  split at hd
  · dsimp only at hd
    split at hd
    · injection hd with h1
      have h2 : _ = d' := congrArg Prod.snd h1
      rw [← h2]
      exact h
    · split at hd
      · exact Option.noConfusion hd
      · injection hd with h1
        have h2 : _ = d' := congrArg Prod.snd h1
        rw [← h2]
        exact h
      · split at hd
        · injection hd with h1
          have h2 : _ = d' := congrArg Prod.snd h1
          rw [← h2]
          exact decodeFragmented_adtsMode_mono _ _ _ _ h
        · injection hd with h1
          have h2 : _ = d' := congrArg Prod.snd h1
          rw [← h2]
          exact decodeUnfragmented_adtsMode_mono _ _ _ _ h
  · injection hd with h1
    have h2 : _ = d' := congrArg Prod.snd h1
    rw [← h2]
    exact h

/-- C5: on the very first successfully decoded AU, a single AU of at least
two bytes starting with the ADTS sync pattern that parses as exactly one
ADTS frame switches the decoder into ADTS mode and is returned unwrapped;
afterwards, in ADTS mode, a result with other than one AU is the
ADTS-multiple-AU error, a single AU parsing to several ADTS frames is the
multiple-ADTS error, a single AU parsing to one frame is returned
unwrapped; and no decode ever leaves ADTS mode again. -/
theorem adts_autodetect_and_mode (d : Decoder) (aus : List (List Nat)) :
    (∀ a0 a1 arest p, d.firstAUParsed = false →
      aus = [a0 :: a1 :: arest] → a0 = 255 → a1 / 16 = 15 →
      adtsUnmarshal (a0 :: a1 :: arest) = .ok [p] →
      d.finalize aus = (.ok [p.au],
        { d with firstAUParsed := true, adtsMode := true })) ∧
    (d.firstAUParsed = true → d.adtsMode = true → aus.length ≠ 1 →
      d.finalize aus = (.error .adtsMultipleAU, d)) ∧
    (∀ a pkts, d.firstAUParsed = true → d.adtsMode = true → aus = [a] →
      adtsUnmarshal a = .ok pkts → pkts.length ≠ 1 →
      d.finalize aus = (.error .multipleADTS, d)) ∧
    (∀ a p, d.firstAUParsed = true → d.adtsMode = true → aus = [a] →
      adtsUnmarshal a = .ok [p] → d.finalize aus = (.ok [p.au], d)) ∧
    (∀ pkt res d', d.adtsMode = true → d.decode pkt = some (res, d') →
      d'.adtsMode = true) := by
  refine ⟨?_, ?_, ?_, ?_, ?_⟩
  · intro a0 a1 arest p hfp haus h255 h15 hadts
    subst haus
    subst h255
    simp [Decoder.finalize, hfp, h15, hadts]
  · intro hfp hmode hlen
    rcases aus with _ | ⟨a, _ | ⟨b, t⟩⟩
    · simp [Decoder.finalize, hfp, hmode]
    · exact absurd rfl hlen
    · simp [Decoder.finalize, hfp, hmode]
  · intro a pkts hfp hmode haus hadts hlen
    subst haus
    rcases pkts with _ | ⟨p, _ | ⟨q, t⟩⟩
    · simp [Decoder.finalize, hfp, hmode, hadts]
    · exact absurd rfl hlen
    · simp [Decoder.finalize, hfp, hmode, hadts]
  · intro a p hfp hmode haus hadts
    subst haus
    simp [Decoder.finalize, hfp, hmode, hadts]
  · intro pkt res d' hmode hd
    exact decode_adtsMode_mono d pkt res d' hmode hd

/-- C5 witness decoder: fresh MPEG-4 audio decoder, 13/3/3 configuration. -/
def dFresh : Decoder := Decoder.init 48000 13 3 3

/-- C5 witness: the first decoded AU is a single 8-byte ADTS frame; finalize
unwraps it to its one-byte payload and latches ADTS mode. -/
theorem adts_autodetect_witness :
    dFresh.finalize [[255, 241, 0, 0, 1, 0, 252, 171]] =
      (.ok [[171]], { dFresh with firstAUParsed := true, adtsMode := true }) :=
  (adts_autodetect_and_mode dFresh [[255, 241, 0, 0, 1, 0, 252, 171]]).1
    255 241 [0, 0, 1, 0, 252, 171] ⟨[171]⟩ rfl rfl rfl (by decide) (by decide)

/-- C3 counterexample: a fresh decoder. -/
def dSplit : Decoder := Decoder.init 48000 13 3 3

/-- C3 counterexample first packet: marker unset, one AU-header declaring
4 bytes, carrying the first half of an ADTS frame. -/
def pktAdtsA : Packet := ⟨false, 0, [0, 16, 0, 32, 255, 241, 0, 0]⟩

/-- C3 counterexample second packet: marker set, one AU-header declaring
4 bytes, carrying the second half of the ADTS frame. -/
def pktAdtsB : Packet := ⟨true, 0, [0, 16, 0, 32, 1, 0, 252, 171]⟩

/-- C3 counterexample intermediate state after the first packet. -/
def dSplit1 : Decoder := { dSplit with fragments := [[255, 241, 0, 0]], fragmentedSize := 4 }

/-- C3 counterexample: when the two fragments happen to reassemble into a
valid single ADTS frame, the first decode of the decoder's lifetime
auto-detects ADTS and returns the unwrapped one-byte payload, not the
byte-exact concatenation of the two data regions — the claim as stated
fails on this input. -/
theorem frag_reassembly_counterexample :
    dSplit.decode pktAdtsA = some (.error .morePacketsNeeded, dSplit1) ∧
    (dSplit1.decode pktAdtsB).map Prod.fst = some (.ok ([[171]], 0)) ∧
    [[171]] ≠ [[255, 241, 0, 0] ++ [1, 0, 252, 171]] := by decide

/-- C3 amended: for a decoder that has already parsed its first AU and is
not in ADTS mode, an access unit split across two packets (marker unset,
then marker set) decodes to need-more-packets on the first packet and to
exactly one AU — the concatenation of the two packets' data regions — on
the second. -/
theorem frag_reassembly (d : Decoder) (pkt1 pkt2 : Packet)
    (b0 b1 c0 c1 n1 n2 : Nat) (rest1 rest2 : List Nat)
    (hfrag : d.fragments = [])
    (hfp : d.firstAUParsed = true)
    (hmode : d.adtsMode = false)
    (hm1 : pkt1.marker = false) (hm2 : pkt2.marker = true)
    (hp1 : pkt1.payload = b0 :: b1 :: rest1)
    (hl1 : b0 * 256 + b1 ≠ 0)
    (hr1 : d.readAUHeaders rest1 (b0 * 256 + b1) = some (.ok [n1]))
    (hfit1 : n1 ≤ (rest1.drop (auHeaderBytes (b0 * 256 + b1))).length)
    (hp2 : pkt2.payload = c0 :: c1 :: rest2)
    (hl2 : c0 * 256 + c1 ≠ 0)
    (hr2 : d.readAUHeaders rest2 (c0 * 256 + c1) = some (.ok [n2]))
    (hfit2 : n2 ≤ (rest2.drop (auHeaderBytes (c0 * 256 + c1))).length)
    (hsize : n1 + n2 ≤ MaxAccessUnitSize) :
    d.decode pkt1 = some (.error .morePacketsNeeded,
      { d with fragments := [(rest1.drop (auHeaderBytes (b0 * 256 + b1))).take n1],
               fragmentedSize := n1 }) ∧
    ∃ t d2,
      Decoder.decode
        { d with fragments := [(rest1.drop (auHeaderBytes (b0 * 256 + b1))).take n1],
                 fragmentedSize := n1 } pkt2 =
        some (.ok ([(rest1.drop (auHeaderBytes (b0 * 256 + b1))).take n1 ++
          (rest2.drop (auHeaderBytes (c0 * 256 + c1))).take n2], t), d2) ∧
      d2.fragments = [] := by
  set data1 := (rest1.drop (auHeaderBytes (b0 * 256 + b1))).take n1 with hd1
  set data2 := (rest2.drop (auHeaderBytes (c0 * 256 + c1))).take n2 with hd2
  constructor
  · rw [decode_unfrag_path d pkt1 b0 b1 rest1 [n1] hp1 hl1 hr1 hfrag]
    simp [Decoder.decodeUnfragmented, hm1, if_neg (not_lt.mpr hfit1), hfrag]
    simpa using hfit1
  · set d1 : Decoder := { d with fragments := [data1], fragmentedSize := n1 } with hdd1
    have hne : d1.fragments ≠ [] := by simp [hdd1]
    rw [decode_frag_path d1 pkt2 c0 c1 rest2 [n2] hp2 hl2 hr2 hne]
    simp only [Decoder.decodeFragmented]
    rw [if_neg (not_lt.mpr hfit2)]
    have hlen1 : data1.length = n1 := by
      rw [hd1, List.length_take]; omega
    have hlen2 : data2.length = n2 := by
      rw [hd2, List.length_take]; omega
    have hfrags : d1.fragments = [data1] := rfl
    have hfsz : d1.fragmentedSize = n1 := rfl
    rw [if_neg (by omega : ¬d1.fragmentedSize + n2 > MaxAccessUnitSize)]
    rw [if_neg (by simp [hm2] : ¬pkt2.marker = false)]
    simp only [← hd2]
    have hret : List.take (n1 + n2) (([data1] ++ [data2]).flatten) ++
        List.replicate (n1 + n2 - ([data1] ++ [data2]).flatten.length) 0 = data1 ++ data2 := by
      have hflat : ([data1] ++ [data2]).flatten = data1 ++ data2 := by simp
      rw [hflat]
      have hlen : (data1 ++ data2).length = n1 + n2 := by
        rw [List.length_append, hlen1, hlen2]
      rw [List.take_of_length_le (le_of_eq hlen), hlen]
      simp
    rw [hret]
    have hfin : Decoder.finalize
        { d with fragments := [], fragmentedSize := n1 + n2 } [data1 ++ data2] =
        (.ok [data1 ++ data2], { d with fragments := [], fragmentedSize := n1 + n2 }) := by
      simp [Decoder.finalize, hfp, hmode]
    rw [hfin]
    exact ⟨_, _, rfl, rfl⟩

/-- C3 witness state: steady-state decoder (first AU already parsed). -/
def dSteady : Decoder := { Decoder.init 48000 13 3 3 with firstAUParsed := true }

/-- C3 witness packet 1: marker unset, one AU-header declaring 2 bytes. -/
def pktS1 : Packet := ⟨false, 0, [0, 16, 0, 16, 1, 2]⟩

/-- C3 witness packet 2: marker set, one AU-header declaring 1 byte. -/
def pktS2 : Packet := ⟨true, 0, [0, 16, 0, 8, 3]⟩

/-- C3 witness: the concrete split AU `[1, 2] ++ [3]` reassembles exactly. -/
theorem frag_reassembly_witness :
    dSteady.decode pktS1 = some (.error .morePacketsNeeded,
      { dSteady with fragments := [[1, 2]], fragmentedSize := 2 }) ∧
    ∃ t d2,
      Decoder.decode { dSteady with fragments := [[1, 2]], fragmentedSize := 2 } pktS2 =
        some (.ok ([[1, 2, 3]], t), d2) ∧ d2.fragments = [] := by
  have h := frag_reassembly dSteady pktS1 pktS2 0 16 0 16 2 1 [0, 16, 1, 2] [0, 8, 3]
    rfl rfl rfl rfl rfl rfl (by decide) rfl (by decide) rfl (by decide) rfl
    (by decide) (by decide)
  simpa [auHeaderBytes] using h

/-- When both header strides are positive, the counting loop finishes
within fuel exceeding the remaining bit budget. -/
theorem countLoop_isSome (szIdx szDelta headersLen : Nat)
    (h1 : 1 ≤ szIdx) (h2 : 1 ≤ szDelta) :
    ∀ (fuel i count : Nat), headersLen - i < fuel →
      (countLoop szIdx szDelta headersLen fuel i count).isSome := by
  intro fuel
  induction fuel with
  | zero => intro i count h; omega
  | succ fuel ih =>
    intro i count h
    rw [countLoop]
    split
    · rename_i hlt
      split
      · exact ih _ _ (by omega)
      · exact ih _ _ (by omega)
    · rfl

/-- When both header strides are positive, the reading loop finishes within
fuel exceeding the remaining bit budget. -/
theorem readLoopGo_isSome (buf : List Nat) (szLen idxLen idxDeltaLen : Nat)
    (h1 : 1 ≤ szLen + idxLen) (h2 : 1 ≤ szLen + idxDeltaLen) :
    ∀ (fuel : Nat) (hl : Int) (pos : Nat) (firstRead : Bool) (acc : List Nat),
      0 < fuel → hl < fuel →
      (readLoopGo buf szLen idxLen idxDeltaLen fuel hl pos firstRead acc).isSome := by
  intro fuel
  induction fuel with
  | zero => intro hl pos firstRead acc hf _; omega
  | succ fuel ih =>
    intro hl pos firstRead acc hf hlt
    rw [readLoopGo]
    split
    · rename_i hpos
      match hrb : readBits buf pos szLen with
      | .error e => rfl
      | .ok (dataLen, pos1) =>
        dsimp only
        split
        · split
          · match hrb2 : readBits buf pos1 idxLen with
            | .error e => rfl
            | .ok (auIndex, pos2) =>
              dsimp only
              split
              · rfl
              · rename_i hidx _
                exact ih _ _ _ _ (by omega) (by omega)
          · rename_i hidx
            exact ih _ _ _ _ (by omega) (by omega)
        · split
          · match hrb2 : readBits buf pos1 idxDeltaLen with
            | .error e => rfl
            | .ok (auIndexDelta, pos2) =>
              dsimp only
              split
              · rfl
              · rename_i hidx _
                exact ih _ _ _ _ (by omega) (by omega)
          · rename_i hidx
            exact ih _ _ _ _ (by omega) (by omega)
    · rfl

/-- With all three field widths zero, the counting loop never advances its
index: it exhausts any fuel whatsoever. -/
theorem countLoop_zero_none (headersLen : Nat) :
    ∀ (fuel i count : Nat), i < headersLen →
      countLoop 0 0 headersLen fuel i count = none := by
  intro fuel
  induction fuel with
  | zero => intro i count h; rfl
  | succ fuel ih =>
    intro i count h
    rw [countLoop, if_pos h]
    split
    · exact ih _ _ (by omega)
    · exact ih _ _ (by omega)

/-- C9: decode terminates on every packet when SizeLength + IndexLength and
SizeLength + IndexDeltaLength are both at least 1; with all three zero and a
nonzero 16-bit AU-headers-length, the counting loop diverges (returns `none`
at every fuel) and decode does not terminate. -/
theorem decode_termination (d : Decoder) :
    (1 ≤ d.sizeLength + d.indexLength → 1 ≤ d.sizeLength + d.indexDeltaLength →
      ∀ pkt : Packet, d.decode pkt ≠ none) ∧
    (d.sizeLength = 0 → d.indexLength = 0 → d.indexDeltaLength = 0 →
      ∀ (pkt : Packet) (b0 b1 : Nat) (rest : List Nat),
        pkt.payload = b0 :: b1 :: rest → b0 * 256 + b1 ≠ 0 →
        (∀ fuel count, countLoop (d.sizeLength + d.indexLength)
            (d.sizeLength + d.indexDeltaLength) (b0 * 256 + b1) fuel 0 count = none) ∧
        d.decode pkt = none) := by
  constructor
  · intro h1 h2 pkt
    unfold Decoder.decode
    split
    · rename_i b0 b1 tail heq
      dsimp only
      split
      · simp
      · rename_i hl
        unfold Decoder.readAUHeaders
        obtain ⟨c, hc⟩ := Option.isSome_iff_exists.mp
          (countLoop_isSome _ _ (b0 * 256 + b1) h1 h2 (b0 * 256 + b1 + 1) 0 0 (by omega))
        rw [hc]
        obtain ⟨r, hr⟩ := Option.isSome_iff_exists.mp
          (readLoopGo_isSome (pkt.payload.drop 2) d.sizeLength d.indexLength
            d.indexDeltaLength h1 h2 (b0 * 256 + b1 + 1) ((b0 * 256 + b1 : Nat) : Int)
            0 false [] (by omega) (by omega))
        rw [hr]
        match r with
        | .error e => simp
        | .ok dataLens =>
          dsimp only
          split <;> simp
    · simp
  · intro hs hi hds pkt b0 b1 rest hp hlne
    have hdiv : ∀ fuel count, countLoop (d.sizeLength + d.indexLength)
        (d.sizeLength + d.indexDeltaLength) (b0 * 256 + b1) fuel 0 count = none := by
      intro fuel count
      simp only [hs, hi, hds]
      exact countLoop_zero_none _ fuel 0 count (by omega)
    refine ⟨hdiv, ?_⟩
    unfold Decoder.decode
    simp only [hp]
    rw [if_neg hlne]
    unfold Decoder.readAUHeaders
    rw [hdiv _ _]

/-- C9 witness: the 13/3/3 configuration terminates on a concrete packet;
the all-zero configuration diverges on the same packet. -/
theorem decode_termination_witness :
    (Decoder.init 48000 13 3 3).decode ⟨true, 0, [0, 16, 0, 8, 3]⟩ ≠ none ∧
    (Decoder.init 48000 0 0 0).decode ⟨true, 0, [0, 16, 0, 8, 3]⟩ = none := by
  constructor
  · exact (decode_termination (Decoder.init 48000 13 3 3)).1 (by decide) (by decide) _
  · exact ((decode_termination (Decoder.init 48000 0 0 0)).2 rfl rfl rfl
      ⟨true, 0, [0, 16, 0, 8, 3]⟩ 0 16 [0, 8, 3] rfl (by decide)).2

/-- On every error return of finalize the decoder state is unchanged. -/
theorem finalize_error_state (d : Decoder) (aus : List (List Nat)) (e : DecError)
    (d3 : Decoder) (h : d.finalize aus = (.error e, d3)) : d3 = d := by
  unfold Decoder.finalize at h
  repeat' split at h
  all_goals rw [Prod.mk.injEq] at h
  all_goals rcases h with ⟨he, hd⟩
  all_goals first
  | exact hd.symm
  | cases he

/-- C10 counterexample state: ADTS-mode decoder with a pending fragment. -/
def dAdFrag : Decoder :=
  { Decoder.init 48000 13 3 3 with
    firstAUParsed := true, adtsMode := true, fragments := [[0]], fragmentedSize := 1 }

/-- C10 counterexample packet: marker set, one AU-header declaring 1 byte,
completing a fragmented AU that does not parse as ADTS. -/
def pktAdFrag : Packet := ⟨true, 0, [0, 16, 0, 8, 1]⟩

/-- C10 counterexample: the ADTS-decode error raised when a fragmented AU
completes in ADTS mode also clears the non-empty fragment buffer, so the
claim's list of exactly three buffer-clearing error paths is incomplete. -/
theorem frag_state_counterexample :
    (dAdFrag.decode pktAdFrag).map (fun r => (r.1, r.2.fragments)) =
      some (.error (.adtsDecode .invalidLength), []) ∧
    dAdFrag.fragments = [[0]] := by decide

end NVR
namespace NVR

/-- C10 amended: the fragment buffer is cleared by the short-payload (under
2 bytes) error, by FragMultipleAU in the fragmented path, by the oversize
error, and by the ADTS finalize errors raised when a fragmented AU completes
with the marker set; every other error path — zero AU-headers-length,
AU-index or AU-index-delta nonzero, bit-reader failure, the fragmented-path
short-payload (declared size beyond the payload), and all unfragmented-path
errors — leaves the fragment buffer and the running fragmented-size counter
unchanged. -/
theorem decode_error_frame (d : Decoder) (pkt : Packet) :
    (pkt.payload.length < 2 →
      d.decode pkt = some (.error .shortPayload, { d with fragments := [] })) ∧
    (∀ b0 b1 rest, pkt.payload = b0 :: b1 :: rest → b0 * 256 + b1 = 0 →
      d.decode pkt = some (.error .auInvalidLength, d)) ∧
    (∀ b0 b1 rest e, pkt.payload = b0 :: b1 :: rest → b0 * 256 + b1 ≠ 0 →
      d.readAUHeaders rest (b0 * 256 + b1) = some (.error e) →
      d.decode pkt = some (.error e, d)) ∧
    (∀ b0 b1 rest dataLens, pkt.payload = b0 :: b1 :: rest → b0 * 256 + b1 ≠ 0 →
      d.readAUHeaders rest (b0 * 256 + b1) = some (.ok dataLens) →
      d.fragments ≠ [] →
      ((dataLens.length ≠ 1 →
        d.decode pkt = some (.error .fragMultipleAU, { d with fragments := [] })) ∧
      (∀ n, dataLens = [n] →
        (rest.drop (auHeaderBytes (b0 * 256 + b1))).length < n →
        d.decode pkt = some (.error .shortPayload, d)) ∧
      (∀ n, dataLens = [n] →
        ¬(rest.drop (auHeaderBytes (b0 * 256 + b1))).length < n →
        d.fragmentedSize + n > MaxAccessUnitSize →
        d.decode pkt = some (.error (.auSizeTooBig (d.fragmentedSize + n)),
          { d with fragments := [], fragmentedSize := d.fragmentedSize + n })) ∧
      (∀ n e d3, dataLens = [n] →
        ¬(rest.drop (auHeaderBytes (b0 * 256 + b1))).length < n →
        ¬d.fragmentedSize + n > MaxAccessUnitSize →
        pkt.marker = true →
        Decoder.finalize { d with fragments := [], fragmentedSize := d.fragmentedSize + n }
          [List.take (d.fragmentedSize + n)
              ((d.fragments ++ [(rest.drop (auHeaderBytes (b0 * 256 + b1))).take n]).flatten) ++
            List.replicate ((d.fragmentedSize + n) -
              (d.fragments ++
                [(rest.drop (auHeaderBytes (b0 * 256 + b1))).take n]).flatten.length) 0] =
          (.error e, d3) →
        d.decode pkt = some (.error e, d3) ∧ d3.fragments = []))) ∧
    (∀ b0 b1 rest dataLens, pkt.payload = b0 :: b1 :: rest → b0 * 256 + b1 ≠ 0 →
      d.readAUHeaders rest (b0 * 256 + b1) = some (.ok dataLens) →
      d.fragments = [] →
      ((∀ e, pkt.marker = true →
        splitAUs (rest.drop (auHeaderBytes (b0 * 256 + b1))) dataLens = .error e →
        d.decode pkt = some (.error e, d)) ∧
      (∀ aus e d3, pkt.marker = true →
        splitAUs (rest.drop (auHeaderBytes (b0 * 256 + b1))) dataLens = .ok aus →
        d.finalize aus = (.error e, d3) →
        d.decode pkt = some (.error e, d3) ∧ d3 = d) ∧
      (pkt.marker = false → dataLens.length ≠ 1 →
        d.decode pkt = some (.error .fragMultipleAU, d)) ∧
      (∀ n, pkt.marker = false → dataLens = [n] →
        (rest.drop (auHeaderBytes (b0 * 256 + b1))).length < n →
        d.decode pkt = some (.error .shortPayload, d)))) := by
  refine ⟨?_, ?_, ?_, ?_, ?_⟩
  · intro hshort
    unfold Decoder.decode
    match hp : pkt.payload with
    | [] => rfl
    | [x] => rfl
    | b0 :: b1 :: rest => rw [hp] at hshort; simp at hshort; omega
  · intro b0 b1 rest hp hl0
    simp [Decoder.decode, hp, hl0]
  · intro b0 b1 rest e hp hl hr
    simp only [Decoder.decode, hp, List.drop_succ_cons, List.drop_zero, hr, if_neg hl]
  · intro b0 b1 rest dataLens hp hl hr hfrag
    refine ⟨?_, ?_, ?_, ?_⟩
    · intro hlen
      rw [decode_frag_path d pkt b0 b1 rest dataLens hp hl hr hfrag]
      match dataLens, hlen with
      | [], _ => rfl
      | _ :: _ :: _, _ => rfl
      | [x], hx => exact absurd rfl hx
    · intro n hn hlt
      rw [decode_frag_path d pkt b0 b1 rest dataLens hp hl hr hfrag, hn]
      simp only [Decoder.decodeFragmented, if_pos hlt]
    · intro n hn hlt hover
      rw [decode_frag_path d pkt b0 b1 rest dataLens hp hl hr hfrag, hn]
      simp only [Decoder.decodeFragmented, if_neg hlt, if_pos hover]
    · intro n e d3 hn hlt hover hm hfin
      rw [decode_frag_path d pkt b0 b1 rest dataLens hp hl hr hfrag, hn]
      simp only [Decoder.decodeFragmented, if_neg hlt, if_neg hover,
        if_neg (by simp [hm] : ¬pkt.marker = false), hfin]
      exact ⟨trivial, by rw [finalize_error_state _ _ _ _ hfin]⟩
  · intro b0 b1 rest dataLens hp hl hr hfrag
    refine ⟨?_, ?_, ?_, ?_⟩
    · intro e hm hsplit
      rw [decode_unfrag_path d pkt b0 b1 rest dataLens hp hl hr hfrag]
      simp [Decoder.decodeUnfragmented, hm, hsplit]
    · intro aus e d3 hm hsplit hfin
      rw [decode_unfrag_path d pkt b0 b1 rest dataLens hp hl hr hfrag]
      simp [Decoder.decodeUnfragmented, hm, hsplit, hfin]
      exact finalize_error_state _ _ _ _ hfin
    · intro hm hlen
      rw [decode_unfrag_path d pkt b0 b1 rest dataLens hp hl hr hfrag]
      simp only [Decoder.decodeUnfragmented, hm]
      match dataLens, hlen with
      | [], _ => rfl
      | _ :: _ :: _, _ => rfl
      | [x], hx => exact absurd rfl hx
    · intro n hm hn hlt
      rw [decode_unfrag_path d pkt b0 b1 rest dataLens hp hl hr hfrag, hn]
      simp [Decoder.decodeUnfragmented, hm, hlt]
      simpa using hlt

/-- C10 witness state: decoder with one pending fragment byte. -/
def dFragShort : Decoder :=
  { Decoder.init 48000 13 3 3 with
    firstAUParsed := true, fragments := [[5]], fragmentedSize := 1 }

/-- C10 witness packet: declares an AU of 9 bytes but carries only one. -/
def pktFragShort : Packet := ⟨true, 0, [0, 16, 0, 72, 1]⟩

/-- C10 witness: the fragmented-path short-payload error leaves the decoder
state, fragment buffer included, unchanged. -/
theorem decode_error_frame_witness :
    dFragShort.decode pktFragShort = some (.error .shortPayload, dFragShort) :=
  ((decode_error_frame dFragShort pktFragShort).2.2.2.1 0 16 [0, 72, 1] [9]
    rfl (by decide) rfl (by decide)).2.1 9 rfl (by decide)

end NVR
namespace NVR

theorem digitVal_digitChar (d : Nat) (h : d < 10) :
    digitVal (Nat.digitChar d) = some d := by
  interval_cases d <;> decide

theorem digitChar_mem (d : Nat) (h : d < 10) :
    Nat.digitChar d ∈ "0123456789".toList := by
  interval_cases d <;> decide

theorem decDigitsGo_digits (l : List Nat) :
    ∀ acc : Nat, (∀ d ∈ l, d < 10) →
      decDigitsGo acc (l.map Nat.digitChar) =
        some (l.foldl (fun a d => a * 10 + d) acc) := by
  induction l with
  | nil => intro acc _; rfl
  | cons d rest ih =>
    intro acc hb
    rw [List.map_cons, decDigitsGo, digitVal_digitChar d (hb d (by simp))]
    exact ih _ (fun x hx => hb x (by simp [hx]))

theorem foldl_reverse_ofDigits (l : List Nat) :
    ∀ acc : Nat, l.reverse.foldl (fun a d => a * 10 + d) acc =
      acc * 10 ^ l.length + Nat.ofDigits 10 l := by
  induction l with
  | nil => intro acc; simp
  | cons d rest ih =>
    intro acc
    rw [List.reverse_cons, List.foldl_append, ih acc]
    simp [Nat.ofDigits_cons]
    ring

theorem decDigitsVal_natToDec (n : Nat) : decDigitsVal (natToDec n) = some n := by
  by_cases h0 : n = 0
  · subst h0; decide
  · rw [natToDec, if_neg h0]
    rcases hrev : (Nat.digits 10 n).reverse with _ | ⟨c, cs⟩
    · exact absurd (by simpa using congrArg List.length hrev)
        (by simpa using Nat.digits_ne_nil_iff_ne_zero.mpr h0)
    · have hb : ∀ d ∈ (Nat.digits 10 n).reverse, d < 10 := fun d hd =>
        Nat.digits_lt_base (by norm_num) (List.mem_reverse.mp hd)
      rw [List.map_cons, decDigitsVal, ← List.map_cons, ← hrev,
        decDigitsGo_digits _ 0 hb, foldl_reverse_ofDigits]
      simp [Nat.ofDigits_digits]

theorem natToDec_chars (n : Nat) :
    ∀ c ∈ natToDec n, c ∈ "0123456789".toList := by
  intro c hc
  rw [natToDec] at hc
  by_cases h0 : n = 0
  · rw [if_pos h0] at hc
    simp at hc
    subst hc
    decide
  · rw [if_neg h0] at hc
    obtain ⟨d, hd, rfl⟩ := List.mem_map.mp hc
    exact digitChar_mem d (Nat.digits_lt_base (by norm_num) (List.mem_reverse.mp hd))

theorem natToDec_ne_nil (n : Nat) : natToDec n ≠ [] := by
  rw [natToDec]
  by_cases h0 : n = 0
  · simp [h0]
  · rw [if_neg h0]
    simp [Nat.digits_ne_nil_iff_ne_zero.mpr h0]

theorem parseInt64_natToDec (n : Nat) (h : n ≤ 2 ^ 63 - 1) :
    parseInt64 (natToDec n) = some (n : Int) := by
  rcases hd : natToDec n with _ | ⟨c, cs⟩
  · exact absurd hd (natToDec_ne_nil n)
  · have hc : c ∈ "0123456789".toList := natToDec_chars n c (by simp [hd])
    obtain ⟨hc1, hc2⟩ : ¬c = '-' ∧ ¬c = '+' := by
      fin_cases hc <;> exact ⟨by decide, by decide⟩
    rw [parseInt64]
    dsimp only
    rw [if_neg hc1, if_neg hc2, ← hd, decDigitsVal_natToDec]
    simp only []
    rw [if_neg (by decide : ¬(false = true)), if_pos (by omega : n ≤ 2 ^ 63 - 1)]

end NVR
namespace NVR

theorem splitOnChar_no_sep (c : Char) (s : Str) (h : c ∉ s) :
    splitOnChar c s = [s] := by
  induction s with
  | nil => rfl
  | cons a rest ih =>
    have ha : ¬a = c := fun hh => h (by simp [hh])
    rw [splitOnChar, if_neg ha, ih (fun hh => h (by simp [hh]))]

theorem splitOnChar_append (c : Char) (s1 s2 : Str) (h : c ∉ s1) :
    splitOnChar c (s1 ++ c :: s2) = s1 :: splitOnChar c s2 := by
  induction s1 with
  | nil => simp [splitOnChar]
  | cons a rest ih =>
    have ha : ¬a = c := fun hh => h (by simp [hh])
    rw [List.cons_append, splitOnChar, if_neg ha, ih (fun hh => h (by simp [hh]))]

theorem splitOnChar_joinSep (c : Char) (parts : List Str) (hne : parts ≠ [])
    (h : ∀ p ∈ parts, c ∉ p) :
    splitOnChar c (joinSep c parts) = parts := by
  induction parts with
  | nil => exact absurd rfl hne
  | cons p rest ih =>
    rcases rest with _ | ⟨q, rest'⟩
    · exact splitOnChar_no_sep c p (h p (by simp))
    · rw [joinSep, splitOnChar_append c p _ (h p (by simp)),
        ih (List.cons_ne_nil q rest') (fun x hx => h x (by simp [hx]))]
      exact List.cons_ne_nil q rest'

theorem splitKV_append (k v : Str) (h : '=' ∉ k) :
    splitKV (k ++ '=' :: v) = (k, v) := by
  induction k with
  | nil => simp [splitKV]
  | cons a rest ih =>
    have ha : ¬a = '=' := fun hh => h (by simp [hh])
    rw [List.cons_append, splitKV, if_neg ha, ih (fun hh => h (by simp [hh]))]

theorem splitKV_no_eq (s : Str) (h : '=' ∉ s) : splitKV s = (s, []) := by
  induction s with
  | nil => rfl
  | cons a rest ih =>
    have ha : ¬a = '=' := fun hh => h (by simp [hh])
    rw [splitKV, if_neg ha, ih (fun hh => h (by simp [hh]))]

theorem unmarshalKVs_protocol (h : Transport) (pf : Bool) (v : Str)
    (l : List (Str × Str)) :
    unmarshalKVs h pf (("RTP/AVP/TCP".toList, v) :: l) = unmarshalKVs h true l := by
  rw [unmarshalKVs, applyKV]
  dsimp only
  rw [if_pos rfl]

theorem unmarshalKVs_interleaved (h : Transport) (pf : Bool) (v : Str)
    (ids : Int × Int) (l : List (Str × Str)) (hv : parsePorts v = .ok ids) :
    unmarshalKVs h pf (("interleaved".toList, v) :: l) =
      unmarshalKVs { h with interleavedIDs := some ids } pf l := by
  rw [unmarshalKVs, applyKV]
  dsimp only
  rw [if_neg (by decide), if_pos rfl]
  simp only [hv]

theorem unmarshalKVs_ssrc (h : Transport) (pf : Bool) (v : Str)
    (l : List (Str × Str)) :
    unmarshalKVs h pf (("ssrc".toList, v) :: l) =
      unmarshalKVs (match ssrcParse v with
        | some n => { h with ssrc := some n }
        | none => h) pf l := by
  rw [unmarshalKVs, applyKV]
  dsimp only
  rw [if_neg (by decide), if_neg (by decide), if_pos rfl]
  match ssrcParse v with
  | some n => rfl
  | none => rfl

theorem unmarshalKVs_mode (h : Transport) (pf : Bool) (v : Str)
    (m : TransportMode) (l : List (Str × Str)) (hv : modeParse v = .ok m) :
    unmarshalKVs h pf (("mode".toList, v) :: l) =
      unmarshalKVs { h with mode := some m } pf l := by
  rw [unmarshalKVs, applyKV]
  dsimp only
  rw [if_neg (by decide), if_neg (by decide), if_neg (by decide), if_pos rfl]
  simp only [hv]

end NVR
namespace NVR

theorem hexDigitVal_upper (d : Nat) (h : d < 16) :
    hexDigitVal (hexDigitUpper d) = some d := by
  interval_cases d <;> decide

theorem hexDigitUpper_mem (d : Nat) (h : d < 16) :
    hexDigitUpper d ∈ "0123456789ABCDEF".toList := by
  interval_cases d <;> decide

theorem hexDigitUpper_ne_space (d : Nat) (h : d < 16) : hexDigitUpper d ≠ ' ' := by
  interval_cases d <;> decide

theorem trimLeftSpaces_cons_ne (c : Char) (rest : Str) (h : ¬c = ' ') :
    trimLeftSpaces (c :: rest) = c :: rest := by
  rw [trimLeftSpaces, List.dropWhile_cons]
  simp [h]

theorem ssrcParse_hexEncode4 (s : Nat) (h : s < 2 ^ 32) :
    ssrcParse (hexEncode4 s) = some s := by
  have hm : ∀ k : Nat, s / 16 ^ k % 16 < 16 := fun k => Nat.mod_lt _ (by norm_num)
  rw [ssrcParse, hexEncode4]
  rw [trimLeftSpaces_cons_ne _ _ (hexDigitUpper_ne_space _ (hm 7))]
  norm_num
  simp only [hexDecode,
    hexDigitVal_upper (s / 268435456 % 16) (Nat.mod_lt _ (by norm_num)),
    hexDigitVal_upper (s / 16777216 % 16) (Nat.mod_lt _ (by norm_num)),
    hexDigitVal_upper (s / 1048576 % 16) (Nat.mod_lt _ (by norm_num)),
    hexDigitVal_upper (s / 65536 % 16) (Nat.mod_lt _ (by norm_num)),
    hexDigitVal_upper (s / 4096 % 16) (Nat.mod_lt _ (by norm_num)),
    hexDigitVal_upper (s / 256 % 16) (Nat.mod_lt _ (by norm_num)),
    hexDigitVal_upper (s / 16 % 16) (Nat.mod_lt _ (by norm_num)),
    hexDigitVal_upper (s % 16) (Nat.mod_lt _ (by norm_num)),
    beBytesVal, List.foldl]
  norm_num
  omega

end NVR
namespace NVR

theorem parsePorts_roundtrip (a b : Int) (ha0 : 0 ≤ a) (ha : a < 2 ^ 63)
    (hb0 : 0 ≤ b) (hb : b < 2 ^ 63) :
    parsePorts (formatInt a ++ '-' :: formatInt b) = .ok (a, b) := by
  rw [formatInt, if_neg (by omega), formatInt, if_neg (by omega)]
  rw [parsePorts, splitOnChar_append '-' _ _
      (fun hmem => by have := natToDec_chars _ _ hmem; revert this; decide),
    splitOnChar_no_sep '-' _
      (fun hmem => by have := natToDec_chars _ _ hmem; revert this; decide)]
  dsimp only
  rw [parseInt64_natToDec _ (by omega), parseInt64_natToDec _ (by omega)]
  dsimp only
  rw [Int.toNat_of_nonneg ha0, Int.toNat_of_nonneg hb0]

theorem formatInt_chars (x : Int) :
    ∀ c ∈ formatInt x, c = '-' ∨ c ∈ "0123456789".toList := by
  intro c hc
  rw [formatInt] at hc
  split at hc
  · rcases List.mem_cons.mp hc with rfl | hc
    · exact Or.inl rfl
    · exact Or.inr (natToDec_chars _ _ hc)
  · exact Or.inr (natToDec_chars _ _ hc)

theorem semi_not_mem_interleaved_part (a b : Int) :
    ';' ∉ "interleaved=".toList ++ formatInt a ++ '-' :: formatInt b := by
  intro hmem
  rcases List.mem_append.mp hmem with hc | hc
  · rcases List.mem_append.mp hc with hc | hc
    · revert hc; decide
    · rcases formatInt_chars a _ hc with heq | hc
      · exact absurd heq (by decide)
      · revert hc; decide
  · rcases List.mem_cons.mp hc with hc | hc
    · exact absurd hc (by decide)
    · rcases formatInt_chars b _ hc with heq | hc
      · exact absurd heq (by decide)
      · revert hc; decide

theorem hexEncode4_chars (s : Nat) :
    ∀ c ∈ hexEncode4 s, c ∈ "0123456789ABCDEF".toList := by
  intro c hc
  rw [hexEncode4] at hc
  have hm : ∀ k : Nat, s / 16 ^ k % 16 < 16 := fun k => Nat.mod_lt _ (by norm_num)
  simp only [List.mem_cons, List.not_mem_nil, or_false] at hc
  rcases hc with rfl | rfl | rfl | rfl | rfl | rfl | rfl | rfl
  · exact hexDigitUpper_mem _ (hm 7)
  · exact hexDigitUpper_mem _ (hm 6)
  · exact hexDigitUpper_mem _ (hm 5)
  · exact hexDigitUpper_mem _ (hm 4)
  · exact hexDigitUpper_mem _ (hm 3)
  · exact hexDigitUpper_mem _ (hm 2)
  · exact hexDigitUpper_mem _ (hm 1)
  · exact hexDigitUpper_mem _ (Nat.mod_lt _ (by norm_num))

theorem semi_not_mem_ssrc_part (s : Nat) : ';' ∉ "ssrc=".toList ++ hexEncode4 s := by
  intro hmem
  rcases List.mem_append.mp hmem with hc | hc
  · revert hc; decide
  · have := hexEncode4_chars s _ hc
    revert this; decide

theorem splitKV_interleaved (v w : Str) :
    splitKV ("interleaved=".toList ++ v ++ '-' :: w) =
      ("interleaved".toList, v ++ '-' :: w) := by
  rw [show "interleaved=".toList ++ v ++ '-' :: w =
      "interleaved".toList ++ '=' :: (v ++ '-' :: w) from rfl]
  exact splitKV_append _ _ (by decide)

theorem splitKV_ssrc (v : Str) :
    splitKV ("ssrc=".toList ++ v) = ("ssrc".toList, v) := by
  rw [show "ssrc=".toList ++ v = "ssrc".toList ++ '=' :: v from rfl]
  exact splitKV_append _ _ (by decide)

/-- C1: unmarshal inverts marshal on every Transport whose optional fields
lie in the representable subset: nonnegative 64-bit interleaved channel ids,
a 32-bit SSRC, and any mode. -/
theorem transport_roundtrip (t : Transport)
    (hi : ∀ a b, t.interleavedIDs = some (a, b) → 0 ≤ a ∧ a < 2 ^ 63 ∧ 0 ≤ b ∧ b < 2 ^ 63)
    (hs : ∀ s, t.ssrc = some s → s < 2 ^ 32) :
    Transport.unmarshal t.marshal = .ok t := by
  obtain ⟨i, s, m⟩ := t
  rcases i with _ | ⟨a, b⟩ <;> rcases s with _ | sv <;> rcases m with _ | mv <;>
    try rcases mv
  · show Transport.unmarshal [joinSep ';' ["RTP/AVP/TCP".toList]] = .ok ⟨none, none, none⟩
    rw [Transport.unmarshal, if_neg (by simp)]
    rw [keyValParse, splitOnChar_joinSep ';' _ (by simp)
      (by
          intro p hp
          simp only [List.mem_cons, List.not_mem_nil, or_false] at hp
          subst hp
          decide
          )]
    simp only [List.map_cons, List.map_nil]
    rw [splitKV_no_eq _ (by decide)]
    rw [unmarshalKVs_protocol]
    rw [unmarshalKVs]
    rfl
  · show Transport.unmarshal [joinSep ';' ["RTP/AVP/TCP".toList, "mode=play".toList]] = .ok ⟨none, none, some TransportMode.play⟩
    rw [Transport.unmarshal, if_neg (by simp)]
    rw [keyValParse, splitOnChar_joinSep ';' _ (by simp)
      (by
          intro p hp
          simp only [List.mem_cons, List.not_mem_nil, or_false] at hp
          rcases hp with rfl | rfl
          · decide
          · decide
          )]
    simp only [List.map_cons, List.map_nil]
    rw [splitKV_no_eq _ (by decide), (by decide : splitKV "mode=play".toList = ("mode".toList, "play".toList))]
    rw [unmarshalKVs_protocol]
    rw [unmarshalKVs_mode _ _ _ TransportMode.play _ (by decide)]
    rw [unmarshalKVs]
    rfl
  · show Transport.unmarshal [joinSep ';' ["RTP/AVP/TCP".toList, "mode=record".toList]] = .ok ⟨none, none, some TransportMode.record⟩
    rw [Transport.unmarshal, if_neg (by simp)]
    rw [keyValParse, splitOnChar_joinSep ';' _ (by simp)
      (by
          intro p hp
          simp only [List.mem_cons, List.not_mem_nil, or_false] at hp
          rcases hp with rfl | rfl
          · decide
          · decide
          )]
    simp only [List.map_cons, List.map_nil]
    rw [splitKV_no_eq _ (by decide), (by decide : splitKV "mode=record".toList = ("mode".toList, "record".toList))]
    rw [unmarshalKVs_protocol]
    rw [unmarshalKVs_mode _ _ _ TransportMode.record _ (by decide)]
    rw [unmarshalKVs]
    rfl
  · have hsv := hs sv rfl
    show Transport.unmarshal [joinSep ';' ["RTP/AVP/TCP".toList, "ssrc=".toList ++ hexEncode4 sv]] = .ok ⟨none, some sv, none⟩
    rw [Transport.unmarshal, if_neg (by simp)]
    rw [keyValParse, splitOnChar_joinSep ';' _ (by simp)
      (by
          intro p hp
          simp only [List.mem_cons, List.not_mem_nil, or_false] at hp
          rcases hp with rfl | rfl
          · decide
          · exact semi_not_mem_ssrc_part sv
          )]
    simp only [List.map_cons, List.map_nil]
    rw [splitKV_no_eq _ (by decide), splitKV_ssrc]
    rw [unmarshalKVs_protocol]
    rw [unmarshalKVs_ssrc, ssrcParse_hexEncode4 sv hsv]
    dsimp only
    rw [unmarshalKVs]
    rfl
  · have hsv := hs sv rfl
    show Transport.unmarshal [joinSep ';' ["RTP/AVP/TCP".toList, "ssrc=".toList ++ hexEncode4 sv, "mode=play".toList]] = .ok ⟨none, some sv, some TransportMode.play⟩
    rw [Transport.unmarshal, if_neg (by simp)]
    rw [keyValParse, splitOnChar_joinSep ';' _ (by simp)
      (by
          intro p hp
          simp only [List.mem_cons, List.not_mem_nil, or_false] at hp
          rcases hp with rfl | rfl | rfl
          · decide
          · exact semi_not_mem_ssrc_part sv
          · decide
          )]
    simp only [List.map_cons, List.map_nil]
    rw [splitKV_no_eq _ (by decide), splitKV_ssrc, (by decide : splitKV "mode=play".toList = ("mode".toList, "play".toList))]
    rw [unmarshalKVs_protocol]
    rw [unmarshalKVs_ssrc, ssrcParse_hexEncode4 sv hsv]
    dsimp only
    rw [unmarshalKVs_mode _ _ _ TransportMode.play _ (by decide)]
    rw [unmarshalKVs]
    rfl
  · have hsv := hs sv rfl
    show Transport.unmarshal [joinSep ';' ["RTP/AVP/TCP".toList, "ssrc=".toList ++ hexEncode4 sv, "mode=record".toList]] = .ok ⟨none, some sv, some TransportMode.record⟩
    rw [Transport.unmarshal, if_neg (by simp)]
    rw [keyValParse, splitOnChar_joinSep ';' _ (by simp)
      (by
          intro p hp
          simp only [List.mem_cons, List.not_mem_nil, or_false] at hp
          rcases hp with rfl | rfl | rfl
          · decide
          · exact semi_not_mem_ssrc_part sv
          · decide
          )]
    simp only [List.map_cons, List.map_nil]
    rw [splitKV_no_eq _ (by decide), splitKV_ssrc, (by decide : splitKV "mode=record".toList = ("mode".toList, "record".toList))]
    rw [unmarshalKVs_protocol]
    rw [unmarshalKVs_ssrc, ssrcParse_hexEncode4 sv hsv]
    dsimp only
    rw [unmarshalKVs_mode _ _ _ TransportMode.record _ (by decide)]
    rw [unmarshalKVs]
    rfl
  · obtain ⟨ha0, ha2, hb0, hb2⟩ := hi a b rfl
    show Transport.unmarshal [joinSep ';' ["RTP/AVP/TCP".toList, "interleaved=".toList ++ formatInt a ++ '-' :: formatInt b]] = .ok ⟨some (a, b), none, none⟩
    rw [Transport.unmarshal, if_neg (by simp)]
    rw [keyValParse, splitOnChar_joinSep ';' _ (by simp)
      (by
          intro p hp
          simp only [List.mem_cons, List.not_mem_nil, or_false] at hp
          rcases hp with rfl | rfl
          · decide
          · exact semi_not_mem_interleaved_part a b
          )]
    simp only [List.map_cons, List.map_nil]
    rw [splitKV_no_eq _ (by decide), splitKV_interleaved]
    rw [unmarshalKVs_protocol]
    rw [unmarshalKVs_interleaved _ _ _ (a, b) _ (parsePorts_roundtrip a b ha0 ha2 hb0 hb2)]
    rw [unmarshalKVs]
    rfl
  · obtain ⟨ha0, ha2, hb0, hb2⟩ := hi a b rfl
    show Transport.unmarshal [joinSep ';' ["RTP/AVP/TCP".toList, "interleaved=".toList ++ formatInt a ++ '-' :: formatInt b, "mode=play".toList]] = .ok ⟨some (a, b), none, some TransportMode.play⟩
    rw [Transport.unmarshal, if_neg (by simp)]
    rw [keyValParse, splitOnChar_joinSep ';' _ (by simp)
      (by
          intro p hp
          simp only [List.mem_cons, List.not_mem_nil, or_false] at hp
          rcases hp with rfl | rfl | rfl
          · decide
          · exact semi_not_mem_interleaved_part a b
          · decide
          )]
    simp only [List.map_cons, List.map_nil]
    rw [splitKV_no_eq _ (by decide), splitKV_interleaved, (by decide : splitKV "mode=play".toList = ("mode".toList, "play".toList))]
    rw [unmarshalKVs_protocol]
    rw [unmarshalKVs_interleaved _ _ _ (a, b) _ (parsePorts_roundtrip a b ha0 ha2 hb0 hb2)]
    rw [unmarshalKVs_mode _ _ _ TransportMode.play _ (by decide)]
    rw [unmarshalKVs]
    rfl
  · obtain ⟨ha0, ha2, hb0, hb2⟩ := hi a b rfl
    show Transport.unmarshal [joinSep ';' ["RTP/AVP/TCP".toList, "interleaved=".toList ++ formatInt a ++ '-' :: formatInt b, "mode=record".toList]] = .ok ⟨some (a, b), none, some TransportMode.record⟩
    rw [Transport.unmarshal, if_neg (by simp)]
    rw [keyValParse, splitOnChar_joinSep ';' _ (by simp)
      (by
          intro p hp
          simp only [List.mem_cons, List.not_mem_nil, or_false] at hp
          rcases hp with rfl | rfl | rfl
          · decide
          · exact semi_not_mem_interleaved_part a b
          · decide
          )]
    simp only [List.map_cons, List.map_nil]
    rw [splitKV_no_eq _ (by decide), splitKV_interleaved, (by decide : splitKV "mode=record".toList = ("mode".toList, "record".toList))]
    rw [unmarshalKVs_protocol]
    rw [unmarshalKVs_interleaved _ _ _ (a, b) _ (parsePorts_roundtrip a b ha0 ha2 hb0 hb2)]
    rw [unmarshalKVs_mode _ _ _ TransportMode.record _ (by decide)]
    rw [unmarshalKVs]
    rfl
  · obtain ⟨ha0, ha2, hb0, hb2⟩ := hi a b rfl
    have hsv := hs sv rfl
    show Transport.unmarshal [joinSep ';' ["RTP/AVP/TCP".toList, "interleaved=".toList ++ formatInt a ++ '-' :: formatInt b, "ssrc=".toList ++ hexEncode4 sv]] = .ok ⟨some (a, b), some sv, none⟩
    rw [Transport.unmarshal, if_neg (by simp)]
    rw [keyValParse, splitOnChar_joinSep ';' _ (by simp)
      (by
          intro p hp
          simp only [List.mem_cons, List.not_mem_nil, or_false] at hp
          rcases hp with rfl | rfl | rfl
          · decide
          · exact semi_not_mem_interleaved_part a b
          · exact semi_not_mem_ssrc_part sv
          )]
    simp only [List.map_cons, List.map_nil]
    rw [splitKV_no_eq _ (by decide), splitKV_interleaved, splitKV_ssrc]
    rw [unmarshalKVs_protocol]
    rw [unmarshalKVs_interleaved _ _ _ (a, b) _ (parsePorts_roundtrip a b ha0 ha2 hb0 hb2)]
    rw [unmarshalKVs_ssrc, ssrcParse_hexEncode4 sv hsv]
    dsimp only
    rw [unmarshalKVs]
    rfl
  · obtain ⟨ha0, ha2, hb0, hb2⟩ := hi a b rfl
    have hsv := hs sv rfl
    show Transport.unmarshal [joinSep ';' ["RTP/AVP/TCP".toList, "interleaved=".toList ++ formatInt a ++ '-' :: formatInt b, "ssrc=".toList ++ hexEncode4 sv, "mode=play".toList]] = .ok ⟨some (a, b), some sv, some TransportMode.play⟩
    rw [Transport.unmarshal, if_neg (by simp)]
    rw [keyValParse, splitOnChar_joinSep ';' _ (by simp)
      (by
          intro p hp
          simp only [List.mem_cons, List.not_mem_nil, or_false] at hp
          rcases hp with rfl | rfl | rfl | rfl
          · decide
          · exact semi_not_mem_interleaved_part a b
          · exact semi_not_mem_ssrc_part sv
          · decide
          )]
    simp only [List.map_cons, List.map_nil]
    rw [splitKV_no_eq _ (by decide), splitKV_interleaved, splitKV_ssrc, (by decide : splitKV "mode=play".toList = ("mode".toList, "play".toList))]
    rw [unmarshalKVs_protocol]
    rw [unmarshalKVs_interleaved _ _ _ (a, b) _ (parsePorts_roundtrip a b ha0 ha2 hb0 hb2)]
    rw [unmarshalKVs_ssrc, ssrcParse_hexEncode4 sv hsv]
    dsimp only
    rw [unmarshalKVs_mode _ _ _ TransportMode.play _ (by decide)]
    rw [unmarshalKVs]
    rfl
  · obtain ⟨ha0, ha2, hb0, hb2⟩ := hi a b rfl
    have hsv := hs sv rfl
    show Transport.unmarshal [joinSep ';' ["RTP/AVP/TCP".toList, "interleaved=".toList ++ formatInt a ++ '-' :: formatInt b, "ssrc=".toList ++ hexEncode4 sv, "mode=record".toList]] = .ok ⟨some (a, b), some sv, some TransportMode.record⟩
    rw [Transport.unmarshal, if_neg (by simp)]
    rw [keyValParse, splitOnChar_joinSep ';' _ (by simp)
      (by
          intro p hp
          simp only [List.mem_cons, List.not_mem_nil, or_false] at hp
          rcases hp with rfl | rfl | rfl | rfl
          · decide
          · exact semi_not_mem_interleaved_part a b
          · exact semi_not_mem_ssrc_part sv
          · decide
          )]
    simp only [List.map_cons, List.map_nil]
    rw [splitKV_no_eq _ (by decide), splitKV_interleaved, splitKV_ssrc, (by decide : splitKV "mode=record".toList = ("mode".toList, "record".toList))]
    rw [unmarshalKVs_protocol]
    rw [unmarshalKVs_interleaved _ _ _ (a, b) _ (parsePorts_roundtrip a b ha0 ha2 hb0 hb2)]
    rw [unmarshalKVs_ssrc, ssrcParse_hexEncode4 sv hsv]
    dsimp only
    rw [unmarshalKVs_mode _ _ _ TransportMode.record _ (by decide)]
    rw [unmarshalKVs]
    rfl

/-- C1 witness: a concrete fully-populated header round-trips. -/
theorem transport_roundtrip_witness :
    Transport.unmarshal (Transport.marshal
      ⟨some (0, 1), some 287454020, some TransportMode.play⟩) =
      .ok ⟨some (0, 1), some 287454020, some TransportMode.play⟩ :=
  transport_roundtrip ⟨some (0, 1), some 287454020, some TransportMode.play⟩
    (by
      intro a b h
      simp only [Option.some.injEq, Prod.mk.injEq] at h
      obtain ⟨h1, h2⟩ := h
      subst h1
      subst h2
      refine ⟨le_refl 0, by norm_num, by norm_num, by norm_num⟩)
    (by
      intro s h
      simp only [Option.some.injEq] at h
      subst h
      norm_num)

/-- C6: for any semicolon-free ssrc value, unmarshalling succeeds with the
SSRC field given by the lenient ssrc parser; odd-length values are
left-padded with a `0` nibble (so they parse like their padded forms), and
values that fail hex decoding or decode to more than 4 bytes leave the SSRC
unset without an error. -/
theorem ssrc_lenient (v : Str) (hv : ';' ∉ v) :
    Transport.unmarshal ["RTP/AVP/TCP;ssrc=".toList ++ v] = .ok { ssrc := ssrcParse v } ∧
    ((trimLeftSpaces v).length % 2 = 1 →
      ssrcParse v = ssrcParse ('0' :: trimLeftSpaces v)) ∧
    (hexDecode (if (trimLeftSpaces v).length % 2 ≠ 0 then '0' :: trimLeftSpaces v
        else trimLeftSpaces v) = none → ssrcParse v = none) ∧
    (∀ bs, hexDecode (if (trimLeftSpaces v).length % 2 ≠ 0 then '0' :: trimLeftSpaces v
        else trimLeftSpaces v) = some bs → 4 < bs.length → ssrcParse v = none) := by
  refine ⟨?_, ?_, ?_, ?_⟩
  · rw [show "RTP/AVP/TCP;ssrc=".toList ++ v =
      "RTP/AVP/TCP".toList ++ ';' :: ("ssrc=".toList ++ v) from rfl]
    rw [Transport.unmarshal, if_neg (by simp), keyValParse,
      splitOnChar_append ';' _ _ (by decide),
      splitOnChar_no_sep ';' _ (by
        intro hmem
        rcases List.mem_append.mp hmem with hc | hc
        · revert hc; decide
        · exact hv hc)]
    simp only [List.map_cons, List.map_nil]
    rw [splitKV_no_eq _ (by decide), splitKV_ssrc]
    rw [unmarshalKVs_protocol, unmarshalKVs_ssrc, unmarshalKVs]
    cases hsp : ssrcParse v <;> rfl
  · intro hodd
    rw [ssrcParse, ssrcParse, trimLeftSpaces_cons_ne _ _ (by decide)]
    rw [if_pos (by omega : (trimLeftSpaces v).length % 2 ≠ 0),
      if_neg (by simp only [List.length_cons]; omega)]
  · intro hdec
    rw [ssrcParse, hdec]
  · intro bs hdec hlen
    rw [ssrcParse, hdec]
    dsimp only
    rw [if_neg (by omega)]

/-- C6 witness: `ssrc=01A` parses without error to the same 32-bit value as
`ssrc=001A`. -/
theorem ssrc_lenient_witness :
    Transport.unmarshal ["RTP/AVP/TCP;ssrc=01A".toList] = .ok { ssrc := some 26 } ∧
    ssrcParse "01A".toList = ssrcParse "001A".toList := by
  have h := ssrc_lenient "01A".toList (by decide)
  constructor
  · have h1 := h.1
    rw [show "RTP/AVP/TCP;ssrc=".toList ++ "01A".toList =
      "RTP/AVP/TCP;ssrc=01A".toList from rfl] at h1
    rw [h1]
    decide
  · have h2 := h.2.1 (by decide)
    rw [h2]
    rfl

end NVR
